import Mathlib

/-!
Verification of the regproxy proxy-validation engine.

The Go sources are shallowly embedded: Go strings become lists of byte
values (`GoStr`), `time.Duration` values become natural numbers, network
outcomes become explicit environment records, and each Go function the
claims touch becomes a Lean function mirroring its control flow.
-/

/-- A Go string, as its sequence of byte values. -/
abbrev GoStr : Type := List Nat

/-- Convert a Lean string literal to a `GoStr` (byte values of its
characters; all inputs used here are ASCII). -/
def gs (s : String) : GoStr := s.data.map Char.toNat

/-- Byte-wise lexicographic comparison of Go strings, the order used by
Go `sort.Strings`. -/
def strLe : List Nat → List Nat → Bool
  | [], _ => true
  | _ :: _, [] => false
  | a :: as, b :: bs => if a < b then true else if b < a then false else strLe as bs

/-- The `Prop`-valued form of `strLe`. -/
def StrLE (a b : GoStr) : Prop := strLe a b = true

instance : DecidableRel StrLE := fun a b =>
  inferInstanceAs (Decidable (strLe a b = true))

theorem strLe_total (a b : List Nat) : strLe a b = true ∨ strLe b a = true := by
  induction a generalizing b with
  | nil => left; rfl
  | cons x xs ih =>
    cases b with
    | nil => right; rfl
    | cons y ys =>
      rcases Nat.lt_trichotomy x y with h | h | h
      · left; simp [strLe, h]
      · subst h
        rcases ih ys with h2 | h2
        · left; simp [strLe, h2]
        · right; simp [strLe, h2]
      · right; simp [strLe, h]

theorem strLe_trans (a b c : List Nat) (hab : strLe a b = true)
    (hbc : strLe b c = true) : strLe a c = true := by
  induction a generalizing b c with
  | nil => rfl
  | cons x xs ih =>
    cases b with
    | nil => simp [strLe] at hab
    | cons y ys =>
      cases c with
      | nil => simp [strLe] at hbc
      | cons z zs =>
        by_cases hxy : x < y
        · by_cases hyz : y < z
          · simp [strLe, Nat.lt_trans hxy hyz]
          · by_cases hzy : z < y
            · simp [strLe, hyz, hzy] at hbc
            · have : y = z := Nat.le_antisymm (Nat.le_of_not_lt hzy) (Nat.le_of_not_lt hyz)
              subst this
              simp [strLe, hxy]
        · by_cases hyx : y < x
          · simp [strLe, hxy, hyx] at hab
          · have hxy2 : x = y := Nat.le_antisymm (Nat.le_of_not_lt hyx) (Nat.le_of_not_lt hxy)
            subst hxy2
            simp only [strLe, if_neg (lt_irrefl x)] at hab
            by_cases hyz : x < z
            · simp [strLe, hyz]
            · by_cases hzy : z < x
              · simp [strLe, hyz, hzy] at hbc
              · have : x = z := Nat.le_antisymm (Nat.le_of_not_lt hzy) (Nat.le_of_not_lt hyz)
                subst this
                simp only [strLe, if_neg (lt_irrefl x)] at hbc ⊢
                exact ih ys zs hab hbc

instance : IsTotal GoStr StrLE := ⟨fun a b => strLe_total a b⟩

instance : IsTrans GoStr StrLE := ⟨fun a b c => strLe_trans a b c⟩

/-- Go `sort.Strings`: sorts a string slice in ascending byte-wise
lexicographic order (the comparison fully determines the output since
equal keys are identical strings). -/
def sortStrings (l : List GoStr) : List GoStr := List.insertionSort StrLE l

/-- Which error value a failed probe records, one per assignment to
`result.Error` in the Go code. -/
inductive ErrKind where
  | invalidProxyURL
  | errCreatingRequest
  | doError
  | errReadingResponse
  | httpError (status : Nat)
deriving DecidableEq, Repr

/-- `api.TestResult` (file `part_002`): outcome of testing one proxy.
`latency` is in abstract duration units; the Go zero value is `0`. -/
structure TestResult where
  proxy : GoStr
  isWorking : Bool
  statusCode : Nat
  latency : Nat
  error : Option ErrKind
  responseLen : Nat
deriving DecidableEq, Repr

/-- Response delivered by `client.Do` when it returns without error:
a status code, whether `io.ReadAll` on the body succeeds, and the body
length when it does. -/
structure DoResp where
  status : Nat
  bodyOk : Bool
  bodyLen : Nat
deriving DecidableEq, Repr

/-- The environment of one `api` probe execution: which of the fallible
steps of `ElevenLabsTester.TestProxy` succeed, and the value
`time.Since(startTime)` would have at the measurement point. -/
structure ProbeEnv where
  parseOk : Bool
  reqOk : Bool
  doOutcome : Option DoResp
  elapsed : Nat
deriving DecidableEq, Repr

/-- `api.ElevenLabsTester.TestProxy` (file `part_002`, lines 44-110),
with the network abstracted into `env`.  Mirrors the Go control flow:
the result starts as the zero value with the proxy filled in; each
early-return error path leaves `latency` at `0`; `latency` and
`statusCode` are assigned only after `client.Do` returns successfully;
`isWorking` becomes true only for a 2xx status after the body was read. -/
def TestProxy (proxyAddr : GoStr) (env : ProbeEnv) : TestResult :=
  let result : TestResult :=
    { proxy := proxyAddr, isWorking := false, statusCode := 0,
      latency := 0, error := none, responseLen := 0 }
  if env.parseOk = false then
    { result with error := some .invalidProxyURL }
  else if env.reqOk = false then
    { result with error := some .errCreatingRequest }
  else
    match env.doOutcome with
    | none => { result with error := some .doError }
    | some resp =>
      let result := { result with latency := env.elapsed, statusCode := resp.status }
      if resp.bodyOk = false then
        { result with error := some .errReadingResponse }
      else
        let result := { result with responseLen := resp.bodyLen }
        if 200 ≤ resp.status ∧ resp.status < 300 then
          { result with isWorking := true }
        else
          { result with error := some (.httpError resp.status) }

/-- `crawler.ProxyResult` (file `src/crawler/tester.go`). -/
structure ProxyResult where
  proxy : GoStr
  isWorking : Bool
  latency : Nat
  error : Option ErrKind
deriving DecidableEq, Repr

/-- The environment of one `crawler` probe execution: which fallible
steps of `ProxyTester.testProxy` succeed (`doOutcome` carries the status
code when `client.Do` returns a response), and the elapsed time at the
measurement point. -/
structure CrawlerProbeEnv where
  parseOk : Bool
  reqOk : Bool
  doOutcome : Option Nat
  elapsed : Nat
deriving DecidableEq, Repr

/-- Go `strings.Split(s, sep)` for a one-byte separator `c`: the
substrings between occurrences of `c`, empty parts kept (the result for
an empty input is `[[]]`, one empty part, as in Go). -/
def splitOn (c : Nat) : List Nat → List (List Nat)
  | [] => [[]]
  | x :: xs =>
    if x = c then [] :: splitOn c xs
    else
      match splitOn c xs with
      | [] => [[x]]
      | y :: ys => (x :: y) :: ys

/-- `crawler.ProxyTester.testProxy` (file `src/crawler/tester.go`,
lines 118-173), with the network abstracted into `env`.  `latency` is
assigned only after `client.Do` succeeds; `isWorking` is true exactly
when the status equals `http.StatusOK` (200). -/
def testProxyCrawler (proxy : GoStr) (env : CrawlerProbeEnv) : ProxyResult :=
  let result : ProxyResult :=
    { proxy := proxy, isWorking := false, latency := 0, error := none }
  if env.parseOk = false then
    { result with error := some .invalidProxyURL }
  else if env.reqOk = false then
    { result with error := some .errCreatingRequest }
  else
    match env.doOutcome with
    | none => { result with error := some .doError }
    | some status =>
      let result := { result with latency := env.elapsed }
      if status = 200 then
        { result with isWorking := true }
      else
        { result with error := some (.httpError status) }

/-- The collection loop of `api.ElevenLabsTester.TestProxies` (file
`part_002`, lines 134-142).  The dispatcher launches one goroutine per
address; `arrivals` is the content of `resultsChan` in completion order
(each probe that gets past the gate sends exactly one result, so in any execution
`arrivals.length ≤ n`; goroutines cancelled while waiting for admission
send nothing).  The loop runs at most `n` iterations; `cancelAt = some k`
means the `ctx.Done` branch of the `select` is taken at iteration `k`,
returning the results collected so far; `none` means cancellation never
fires. -/
def collectResults : Nat → List TestResult → Option Nat → List TestResult
  | 0, _, _ => []
  | _ + 1, _, some 0 => []
  | n + 1, arrivals, none =>
    match arrivals with
    | [] => []
    | a :: rest => a :: collectResults n rest none
  | n + 1, arrivals, some (k + 1) =>
    match arrivals with
    | [] => []
    | a :: rest => a :: collectResults n rest (some k)

/-- `api.ElevenLabsTester.TestProxies` (file `part_002`, lines 113-145):
dispatch over `proxies`, returning the collected results. -/
def TestProxies (proxies : List GoStr) (arrivals : List TestResult)
    (cancelAt : Option Nat) : List TestResult :=
  collectResults proxies.length arrivals cancelAt

/-- `api.GetWorkingProxies` (file `part_002`, lines 148-156): the
addresses of the results marked working, in result order. -/
def GetWorkingProxies (results : List TestResult) : List GoStr :=
  (results.filter (fun r => r.isWorking)).map (fun r => r.proxy)

/-- The reduce step of `daemon.testProxies` (file `src/daemon/daemon.go`,
second version, lines 594-603): filter to working results, sort the
addresses with `sort.Strings`, and truncate to `keepWorkingProxies`
entries when longer. -/
def reduceResults (results : List TestResult) (keepWorkingProxies : Nat) : List GoStr :=
  if keepWorkingProxies < (sortStrings (GetWorkingProxies results)).length then
    (sortStrings (GetWorkingProxies results)).take keepWorkingProxies
  else
    sortStrings (GetWorkingProxies results)

/-- `storage.ProxyTestResult` (file `part_001`, lines 670-678). -/
structure StorageResult where
  address : GoStr
  ip : GoStr
  port : GoStr
  ptype : GoStr
  isWorking : Bool
  latency : Nat
  error : Option ErrKind
deriving DecidableEq, Repr

/-- The per-working-result conversion inside `daemon.testProxies` (file
`src/daemon/daemon.go`, first version, lines 202-221): split the address
on the colon, the first part is the IP, the second (when present) the
port. -/
def toStorageResult (r : TestResult) : StorageResult :=
  let parts := splitOn 58 r.proxy
  let ip := parts.headD []
  let port := if 1 < parts.length then parts.getD 1 [] else []
  { address := r.proxy, ip := ip, port := port, ptype := gs "http",
    isWorking := r.isWorking, latency := r.latency, error := r.error }

/-- The observable outcome of one `daemon.testProxies` call: the value it
returns (`err`), the new in-memory working set, and the argument of each
persistence call when that call was made (`none` = not invoked). -/
structure TestOutcome where
  err : Option GoStr
  newWorking : List GoStr
  fileSaveArg : Option (List GoStr)
  mongoSaveArg : Option (List StorageResult)
deriving DecidableEq, Repr

/-- The `workingResults` list accumulated by the result loop of
`daemon.testProxies` (first version): populated only when MongoDB
storage is enabled, one converted record per working result. -/
def workingStorageResults (mongoEnabled : Bool) (results : List TestResult) :
    List StorageResult :=
  if mongoEnabled then (results.filter (fun r => r.isWorking)).map toStorageResult
  else []

/-- `workingResults` after the truncation step (`workingResults[:keep]`,
taken only when the sorted working list exceeds `keep`). -/
def truncatedStorageResults (mongoEnabled : Bool) (keep : Nat)
    (results : List TestResult) : List StorageResult :=
  if keep < (sortStrings (GetWorkingProxies results)).length then
    (workingStorageResults mongoEnabled results).take keep
  else workingStorageResults mongoEnabled results

/-- `daemon.testProxies` (file `src/daemon/daemon.go`, first version,
lines 176-278), with the dispatcher output passed in as `results`.
Mirrors the Go control flow: early `nil` return on an empty input (no
persistence calls); working results accumulate `workingProxies` and,
when MongoDB is enabled, `workingResults`; `workingProxies` is sorted
with `sort.Strings` and both slices are truncated to `keep` when the
sorted list is longer; the MongoDB save runs only when storage is
enabled and `workingResults` is non-empty; the file save always runs
with the published set; the function returns `nil` on every path it
completes.  `none` models the one panicking path: the truncation
`workingResults[:keep]` faults when `keep` exceeds the capacity of
`workingResults`, which happens exactly when the list is shorter than
`keep` — with MongoDB enabled it has the full working count (at least
`keep + 1` when truncation fires), but with MongoDB disabled it is the
nil slice of capacity 0, so any `keep > 0` truncation panics. -/
def testProxiesV1 (mongoEnabled : Bool) (keep : Nat) (currentWorking : List GoStr)
    (proxies : List GoStr) (results : List TestResult) : Option TestOutcome :=
  if proxies.length = 0 then
    some { err := none, newWorking := currentWorking, fileSaveArg := none,
           mongoSaveArg := none }
  else if keep < (sortStrings (GetWorkingProxies results)).length ∧
      (workingStorageResults mongoEnabled results).length < keep then
    none
  else
    some { err := none,
           newWorking := reduceResults results keep,
           fileSaveArg := some (reduceResults results keep),
           mongoSaveArg :=
             if mongoEnabled ∧
                 0 < (truncatedStorageResults mongoEnabled keep results).length then
               some (truncatedStorageResults mongoEnabled keep results)
             else none }

/-- One bulk-write operation built by `storage.SaveWorkingProxies`. -/
inductive WriteOp where
  | upsertWorking (address : GoStr) (latency : Nat)
  | upsertFailed (address : GoStr)
deriving DecidableEq, Repr

/-- `storage.MongoStorage.SaveWorkingProxies` (file `part_001`, lines
438-529), reduced to the bulk write it performs: `none` when the early
return on an empty batch fires (no write executed), otherwise one upsert
operation per result. -/
def SaveWorkingProxiesOps (results : List StorageResult) : Option (List WriteOp) :=
  if results.length = 0 then none
  else
    some (results.map (fun r =>
      if r.isWorking then WriteOp.upsertWorking r.address r.latency
      else WriteOp.upsertFailed r.address))

/-- Go slice expression `l[:k]` with an `int` bound: defined only for
`0 ≤ k ≤ len(l)`; out of that range the program panics (`none`). -/
def goSliceTo (l : List GoStr) (k : Int) : Option (List GoStr) :=
  if 0 ≤ k ∧ k ≤ (l.length : Int) then some (l.take k.toNat) else none

/-- The sample selection of `daemon.crawlAndTestProxies` (file
`src/daemon/daemon.go`, lines 155-161): clamp the configured
`TestSampleSize` down to the number of crawled proxies only when there
are fewer proxies than the configured size, then slice. -/
def selectTestSample (proxies : List GoStr) (testSampleSize : Int) : Option (List GoStr) :=
  let sampleSize : Int :=
    if (proxies.length : Int) < testSampleSize then (proxies.length : Int) else testSampleSize
  goSliceTo proxies sampleSize

/-- `b` is an ASCII decimal digit. -/
def isDigit (b : Nat) : Bool := decide (48 ≤ b ∧ b ≤ 57)

/-- Decimal value of a digit string. -/
def digitsToNat (s : List Nat) : Nat := s.foldl (fun acc b => acc * 10 + (b - 48)) 0

/-- One dotted-decimal field as accepted by Go `net.ParseIP` for IPv4
addresses: non-empty, all digits, at most three of them, no leading
zero (except the field `0` itself), value at most 255. -/
def validOctet (s : List Nat) : Bool :=
  decide (s ≠ []) && s.all isDigit && decide (s.length ≤ 3) &&
    decide (digitsToNat s ≤ 255) &&
    (decide (s.length = 1) || decide (s.headD 0 ≠ 48))

/-- Go `net.ParseIP` success on a colon-free candidate host (inside
`validateProxy` the host comes from a split on the colon, so the IPv6
branch of `ParseIP`, which requires a colon, can never succeed): exactly
four dot-separated valid octets. -/
def parseIPv4 (s : List Nat) : Bool :=
  match splitOn 46 s with
  | [a, b, c, d] => validOctet a && validOctet b && validOctet c && validOctet d
  | _ => false

/-- Go `strconv.Atoi`: an optional sign followed by at least one digit;
anything else is an error (`none`).  Out-of-range inputs error in Go and
here produce a large value instead — inside `validateProxy` both fail
the `[1,65535]` range check, so the outcomes coincide. -/
def atoi (s : List Nat) : Option Int :=
  let core : List Nat → Int → Option Int := fun ds sign =>
    if ds ≠ [] && ds.all isDigit then some (sign * (digitsToNat ds : Int)) else none
  match s with
  | [] => none
  | b :: rest =>
    if b = 43 then core rest 1
    else if b = 45 then core rest (-1)
    else core s 1

/-- `crawler.Crawler.validateProxy` (file `src/crawler/tester.go`, lines
406-427): split on the colon into exactly two parts, require the first
to parse with `net.ParseIP` and the second to be an integer in
`[1,65535]`. -/
def validateProxy (proxy : GoStr) : Bool :=
  match splitOn 58 proxy with
  | [ip, port] =>
    if parseIPv4 ip = false then false
    else
      match atoi port with
      | none => false
      | some portNum => decide (1 ≤ portNum ∧ portNum ≤ 65535)
  | _ => false

/-- State of one dispatcher goroutine of `api.TestProxies` (file
`part_002`, lines 119-132): `waiting` = launched, blocked on the
semaphore send; `running` = holding a semaphore slot, executing
`TestProxy`; `done` = finished and released its slot; `aborted` =
observed `ctx.Done` while waiting and returned without starting. -/
inductive WStat where
  | waiting
  | running
  | done
  | aborted
deriving DecidableEq, Repr

/-- Whether a goroutine currently holds a semaphore slot. -/
def isRunning : WStat → Bool
  | .running => true
  | _ => false

/-- Number of probes in flight: goroutines between semaphore acquire and
release. -/
def inFlight (ws : List WStat) : Nat := (ws.filter isRunning).length

/-- One scheduler step of the dispatcher.  `acquire` is the successful
send on the `semaphore` channel of capacity `limit`: it can fire only
when fewer than `limit` slots are occupied.  `finish` is the deferred
receive releasing a slot.  `abort` is the `ctx.Done` branch of the
admission `select`. -/
inductive DStep (limit : Nat) : List WStat → List WStat → Prop
  | acquire (ws : List WStat) (i : Nat) (h : ws.get? i = some .waiting)
      (hcap : inFlight ws < limit) : DStep limit ws (ws.set i .running)
  | finish (ws : List WStat) (i : Nat) (h : ws.get? i = some .running) :
      DStep limit ws (ws.set i .done)
  | abort (ws : List WStat) (i : Nat) (h : ws.get? i = some .waiting) :
      DStep limit ws (ws.set i .aborted)

/-- Dispatcher states reachable from launching `n` goroutines, all
initially waiting for admission. -/
inductive DReachable (limit : Nat) : List WStat → Prop
  | init (n : Nat) : DReachable limit (List.replicate n .waiting)
  | step (ws ws2 : List WStat) : DReachable limit ws → DStep limit ws ws2 →
      DReachable limit ws2

theorem inFlight_set_le (ws : List WStat) (i : Nat) (v : WStat)
    (hv : isRunning v = false) : inFlight (ws.set i v) ≤ inFlight ws := by
  induction ws generalizing i with
  | nil => simp [List.set]
  | cons x xs ih =>
    cases i with
    | zero =>
      simp only [List.set, inFlight, List.filter]
      cases hx : isRunning x
      · simp [hv, hx, inFlight]
      · simp [hv, hx, inFlight]
    | succ j =>
      simp only [List.set, inFlight, List.filter]
      cases hx : isRunning x
      · simpa [hx, inFlight] using ih j
      · simpa [hx, inFlight] using ih j

theorem inFlight_set_running_le (ws : List WStat) (i : Nat) :
    inFlight (ws.set i .running) ≤ inFlight ws + 1 := by
  induction ws generalizing i with
  | nil => simp [List.set, inFlight]
  | cons x xs ih =>
    cases i with
    | zero =>
      simp only [List.set, inFlight, List.filter]
      cases hx : isRunning x
      · simp [hx, inFlight, isRunning]
      · simp [hx, inFlight, isRunning]
    | succ j =>
      simp only [List.set, inFlight, List.filter]
      cases hx : isRunning x
      · simpa [hx, inFlight] using ih j
      · have := ih j
        simp only [hx, inFlight] at *
        simpa using this

theorem inFlight_replicate_waiting (n : Nat) :
    inFlight (List.replicate n .waiting) = 0 := by
  induction n with
  | zero => rfl
  | succ k ih =>
    simp only [List.replicate, inFlight, List.filter, isRunning] at *
    exact ih

theorem collectResults_length_le (n : Nat) (arrivals : List TestResult)
    (c : Option Nat) : (collectResults n arrivals c).length ≤ n := by
  induction n generalizing arrivals c with
  | zero => simp [collectResults]
  | succ m ih =>
    cases c with
    | none =>
      cases arrivals with
      | nil => simp [collectResults]
      | cons a rest =>
        simpa [collectResults, Nat.succ_le_succ_iff] using ih rest none
    | some k =>
      cases k with
      | zero => simp [collectResults]
      | succ k2 =>
        cases arrivals with
        | nil => simp [collectResults]
        | cons a rest =>
          simpa [collectResults, Nat.succ_le_succ_iff] using ih rest (some k2)

theorem collectResults_none_complete (n : Nat) (arrivals : List TestResult)
    (h : arrivals.length = n) : (collectResults n arrivals none).length = n := by
  induction n generalizing arrivals with
  | zero => simp [collectResults]
  | succ m ih =>
    cases arrivals with
    | nil => simp at h
    | cons a rest =>
      simp only [List.length_cons] at h
      simpa [collectResults] using ih rest (by omega)

/-- C10: at every instant during a dispatch, at most `limit`
(`maxWorkers`) probes are in flight: in every reachable state of the
semaphore-gated dispatcher of `api.TestProxies`, the number of
goroutines holding a semaphore slot is at most the channel capacity,
regardless of how many goroutines were launched. -/
theorem dispatch_inflight_bounded (limit : Nat) (ws : List WStat)
    (h : DReachable limit ws) : inFlight ws ≤ limit := by
  induction h with
  | init n => simp [inFlight_replicate_waiting]
  | step ws ws2 hreach hstep ih =>
    cases hstep with
    | acquire i hi hcap =>
      exact le_trans (inFlight_set_running_le ws i) (by omega)
    | finish i hi => exact le_trans (inFlight_set_le ws i .done rfl) ih
    | abort i hi => exact le_trans (inFlight_set_le ws i .aborted rfl) ih

theorem dispatch_inflight_bounded_witness :
    DReachable 2 [WStat.running, WStat.waiting] ∧
      inFlight [WStat.running, WStat.waiting] ≤ 2 := by
  have hstep : DStep 2 (List.replicate 2 WStat.waiting)
      [WStat.running, WStat.waiting] :=
    DStep.acquire (List.replicate 2 WStat.waiting) 0 (by decide) (by decide)
  have hreach : DReachable 2 [WStat.running, WStat.waiting] :=
    DReachable.step _ _ (DReachable.init 2) hstep
  exact ⟨hreach, dispatch_inflight_bounded 2 _ hreach⟩

/-- C4: the dispatcher's result collection never exceeds the input
address list in length, and when no cancellation occurs (so every
launched probe delivers its one result) it has exactly the input
length. -/
theorem dispatch_result_length (proxies : List GoStr)
    (arrivals : List TestResult) (cancelAt : Option Nat) :
    (TestProxies proxies arrivals cancelAt).length ≤ proxies.length ∧
      (cancelAt = none → arrivals.length = proxies.length →
        (TestProxies proxies arrivals cancelAt).length = proxies.length) := by
  refine ⟨collectResults_length_le _ _ _, ?_⟩
  intro hc harr
  subst hc
  exact collectResults_none_complete _ _ harr

theorem dispatch_result_length_witness :
    (TestProxies [gs "1.1.1.1:80", gs "2.2.2.2:80"]
        [TestProxy (gs "1.1.1.1:80") ⟨true, true, none, 0⟩,
         TestProxy (gs "2.2.2.2:80") ⟨true, true, none, 0⟩] none).length ≤ 2 ∧
      (TestProxies [gs "1.1.1.1:80", gs "2.2.2.2:80"]
        [TestProxy (gs "1.1.1.1:80") ⟨true, true, none, 0⟩,
         TestProxy (gs "2.2.2.2:80") ⟨true, true, none, 0⟩] none).length = 2 := by
  have h := dispatch_result_length [gs "1.1.1.1:80", gs "2.2.2.2:80"]
    [TestProxy (gs "1.1.1.1:80") ⟨true, true, none, 0⟩,
     TestProxy (gs "2.2.2.2:80") ⟨true, true, none, 0⟩] none
  exact ⟨h.1, h.2 rfl (by decide)⟩

/-- The latency the dispatcher measured for an address: the `latency`
field of the first result for that address. -/
def latencyFor (results : List TestResult) (addr : GoStr) : Nat :=
  match results.find? (fun r => decide (r.proxy = addr)) with
  | some r => r.latency
  | none => 0

/-- Adjacent-pairs ascending test on a list of numbers. -/
def ascending : List Nat → Bool
  | [] => true
  | [_] => true
  | a :: b :: rest => decide (a ≤ b) && ascending (b :: rest)

/-- The working set `out` is in ascending order of the latency measured
for each of its addresses in `results`. -/
def sortedByLatency (results : List TestResult) (out : List GoStr) : Prop :=
  ascending (out.map (latencyFor results)) = true

instance (results : List TestResult) (out : List GoStr) :
    Decidable (sortedByLatency results out) :=
  inferInstanceAs (Decidable (ascending (out.map (latencyFor results)) = true))

/-- Two working results: `1.1.1.1:80` measured at 100 units,
`2.2.2.2:80` at 5 units. -/
def rsLex : List TestResult :=
  [{ proxy := gs "1.1.1.1:80", isWorking := true, statusCode := 200,
     latency := 100, error := none, responseLen := 0 },
   { proxy := gs "2.2.2.2:80", isWorking := true, statusCode := 200,
     latency := 5, error := none, responseLen := 0 }]

/-- C1: the reduce step keeps the length within the capacity but sorts
with `sort.Strings`, i.e. lexicographically by address bytes, not by
latency: on `rsLex` it returns `1.1.1.1:80` (100 units) before
`2.2.2.2:80` (5 units), so the output is not ascending by latency. -/
theorem reduce_not_sorted_by_latency :
    reduceResults rsLex 50 = [gs "1.1.1.1:80", gs "2.2.2.2:80"] ∧
      (reduceResults rsLex 50).length ≤ 50 ∧
      ¬ sortedByLatency rsLex (reduceResults rsLex 50) := by decide

/-- Re-package a working set as the result set of re-testing it, every
address working with an arbitrary measured latency. -/
def toWorkingResults (addrs : List GoStr) (lat : GoStr → Nat) : List TestResult :=
  addrs.map (fun a =>
    { proxy := a, isWorking := true, statusCode := 200, latency := lat a,
      error := none, responseLen := 0 })

theorem getWorking_toWorking (l : List GoStr) (lat : GoStr → Nat) :
    GetWorkingProxies (toWorkingResults l lat) = l := by
  induction l with
  | nil => rfl
  | cons a rest ih =>
    simp only [toWorkingResults, GetWorkingProxies, List.map_cons, List.filter] at *
    simpa using ih

theorem sorted_reduceResults (results : List TestResult) (keep : Nat) :
    List.Sorted StrLE (reduceResults results keep) := by
  unfold reduceResults
  have hs : List.Sorted StrLE (sortStrings (GetWorkingProxies results)) :=
    List.sorted_insertionSort StrLE _
  split
  · exact hs.sublist (List.take_sublist _ _)
  · exact hs

theorem reduceResults_length_le (results : List TestResult) (keep : Nat) :
    (reduceResults results keep).length ≤ keep := by
  unfold reduceResults
  split
  · simp
  · omega

/-- C9: the reduce step is idempotent: re-reducing the result set
obtained by marking every address of a reduced working set as working
(with any latencies) returns that working set unchanged — it is already
all-working, `sort.Strings`-sorted, and within capacity. -/
theorem reduce_idempotent (results : List TestResult) (keep : Nat) (lat : GoStr → Nat) :
    reduceResults (toWorkingResults (reduceResults results keep) lat) keep =
      reduceResults results keep := by
  have hsorted : List.Sorted StrLE (reduceResults results keep) :=
    sorted_reduceResults results keep
  have hlen : (reduceResults results keep).length ≤ keep :=
    reduceResults_length_le results keep
  have hsort_eq : sortStrings (reduceResults results keep) = reduceResults results keep := by
    unfold sortStrings
    exact hsorted.insertionSort_eq
  conv_lhs => rw [reduceResults, getWorking_toWorking, hsort_eq]
  rw [if_neg (by omega)]

/-- C2: the crawl-cycle sample selection.  For a non-negative configured
size `S` the tested sample is exactly the first `min(S, len)` crawled
addresses in supplied order — so `S = 0` selects the empty sample and
tests nothing, not everything; for `S < 0` the clamp does not fire and
the slice expression `proxies[:S]` panics. -/
theorem selectTestSample_spec (proxies : List GoStr) (s : Int) :
    selectTestSample proxies s =
      if 0 ≤ s then some (proxies.take (min s.toNat proxies.length)) else none := by
  unfold selectTestSample goSliceTo
  by_cases hs : 0 ≤ s
  · by_cases hlen : (proxies.length : Int) < s
    · rw [if_pos hlen, if_pos ⟨Int.natCast_nonneg _, le_refl _⟩, if_pos hs]
      congr 1
      rw [Int.toNat_natCast]
      have hmin : min s.toNat proxies.length = proxies.length :=
        Nat.min_eq_right (by omega)
      rw [hmin, List.take_length]
    · rw [if_neg hlen, if_pos ⟨hs, le_of_not_lt hlen⟩, if_pos hs]
      congr 1
      have hmin : min s.toNat proxies.length = s.toNat := Nat.min_eq_left (by omega)
      rw [hmin]
  · have hlt : ¬ ((proxies.length : Int) < s) := by omega
    rw [if_neg hlt, if_neg (fun hk => hs hk.1), if_neg hs]

/-- C2, counterexample to the original claim: with one crawled address
and configured sample size `0` (a value the claim covers by "S <= 0
means test all") the selected sample is empty, not the full list. -/
theorem selectTestSample_zero_counterexample :
    selectTestSample [gs "1.1.1.1:80"] 0 = some [] ∧
      selectTestSample [gs "1.1.1.1:80"] 0 ≠ some [gs "1.1.1.1:80"] := by decide

/-- The environment a daemon cycle runs in: the outcome of
`crawler.CrawlProxies` (`none` = the crawl returned an error) and the
dispatcher results for whichever address list gets tested. -/
structure DaemonEnv where
  crawlOutcome : Option (List GoStr)
  testResults : List GoStr → List TestResult

/-- Outcome of a daemon cycle: the crawl errored, a slice expression
panicked, or the cycle completed with a `testProxies` outcome. -/
inductive CycleResult where
  | errored
  | panicked
  | completed (out : TestOutcome)
deriving DecidableEq

/-- `daemon.crawlAndTestProxies` (file `src/daemon/daemon.go`, lines
135-163): crawl, on error return it; select the test sample; test it. -/
def crawlAndTestProxies (mongoEnabled : Bool) (keep : Nat) (sampleSize : Int)
    (currentWorking : List GoStr) (env : DaemonEnv) : CycleResult :=
  match env.crawlOutcome with
  | none => .errored
  | some proxies =>
    match selectTestSample proxies sampleSize with
    | none => .panicked
    | some sample =>
      match testProxiesV1 mongoEnabled keep currentWorking sample
          (env.testResults sample) with
      | none => .panicked
      | some out => .completed out

/-- `daemon.testExistingProxies` (file `src/daemon/daemon.go`, lines
166-173): with an empty working pool fall back to a crawl cycle,
otherwise re-test the current pool. -/
def testExistingProxies (mongoEnabled : Bool) (keep : Nat) (sampleSize : Int)
    (currentWorking : List GoStr) (env : DaemonEnv) : CycleResult :=
  if currentWorking.length = 0 then
    crawlAndTestProxies mongoEnabled keep sampleSize currentWorking env
  else
    match testProxiesV1 mongoEnabled keep currentWorking currentWorking
        (env.testResults currentWorking) with
    | none => .panicked
    | some out => .completed out

/-- C7: a maintenance cycle on an empty working pool delegates to the
crawl cycle: its outcome is exactly the crawl cycle's outcome, in every
environment. -/
theorem maintenance_empty_delegates (mongoEnabled : Bool) (keep : Nat)
    (sampleSize : Int) (currentWorking : List GoStr) (env : DaemonEnv)
    (h : currentWorking = []) :
    testExistingProxies mongoEnabled keep sampleSize currentWorking env =
      crawlAndTestProxies mongoEnabled keep sampleSize currentWorking env := by
  subst h
  simp [testExistingProxies]

theorem maintenance_empty_delegates_witness :
    testExistingProxies true 50 100 []
        { crawlOutcome := some [gs "1.1.1.1:80"], testResults := fun _ => [] } =
      crawlAndTestProxies true 50 100 []
        { crawlOutcome := some [gs "1.1.1.1:80"], testResults := fun _ => [] } :=
  maintenance_empty_delegates true 50 100 []
    { crawlOutcome := some [gs "1.1.1.1:80"], testResults := fun _ => [] } rfl

/-- A typical failing probe result: connection error, nothing working. -/
def failedResult : TestResult :=
  { proxy := gs "1.1.1.1:80", isWorking := false, statusCode := 0,
    latency := 0, error := some .doError, responseLen := 0 }

/-- C3, counterexample to the original claim: MongoDB storage enabled,
one proxy tested, its probe failed.  The cycle publishes the empty set
and saves it to file, but the document-store write is not invoked at
all (guard `len(workingResults) > 0` in `testProxies`; and
`SaveWorkingProxies` itself returns before writing on an empty batch),
contradicting "persistence is still invoked with that empty set". -/
theorem testProxies_mongo_skipped_counterexample :
    testProxiesV1 true 50 [] [gs "1.1.1.1:80"] [failedResult] =
        some { err := none, newWorking := [], fileSaveArg := some [],
               mongoSaveArg := none } ∧
      (testProxiesV1 true 50 [] [gs "1.1.1.1:80"] [failedResult]).map
          (fun out => out.mongoSaveArg) ≠ some (some []) ∧
      SaveWorkingProxiesOps [] = none := by decide

/-- C3 (amended): the test-and-publish step never returns an error, and
on a non-empty input whose probes all fail it replaces the in-memory
working set with the empty set and still invokes the file save with that
empty set — but the document-store write is skipped. -/
theorem testProxies_all_fail_spec (mongoEnabled : Bool) (keep : Nat)
    (currentWorking : List GoStr) (proxies : List GoStr)
    (results : List TestResult) :
    (∀ out, testProxiesV1 mongoEnabled keep currentWorking proxies results =
        some out → out.err = none) ∧
      (proxies ≠ [] → (∀ r ∈ results, r.isWorking = false) →
        testProxiesV1 mongoEnabled keep currentWorking proxies results =
          some { err := none, newWorking := [], fileSaveArg := some [],
                 mongoSaveArg := none }) := by
  constructor
  · intro out hout
    unfold testProxiesV1 at hout
    split at hout
    · injection hout with h
      rw [← h]
    · split at hout
      · exact Option.noConfusion hout
      · injection hout with h
        rw [← h]
  · intro hne hfail
    have hfilter : results.filter (fun r => r.isWorking) = [] :=
      List.filter_eq_nil_iff.mpr (by simpa using hfail)
    have hlen : proxies.length ≠ 0 := by
      cases proxies with
      | nil => exact absurd rfl hne
      | cons a rest => simp
    unfold testProxiesV1
    rw [if_neg hlen]
    simp [GetWorkingProxies, hfilter, sortStrings, reduceResults,
      truncatedStorageResults, workingStorageResults]

theorem testProxies_all_fail_spec_witness :
    ((testProxiesV1 true 50 [gs "9.9.9.9:1"] [gs "1.1.1.1:80"] [failedResult]).map
        (fun out => out.err) = some none ∨
      testProxiesV1 true 50 [gs "9.9.9.9:1"] [gs "1.1.1.1:80"] [failedResult] =
        none) ∧
      testProxiesV1 true 50 [gs "9.9.9.9:1"] [gs "1.1.1.1:80"] [failedResult] =
        some { err := none, newWorking := [], fileSaveArg := some [],
               mongoSaveArg := none } := by
  have h := testProxies_all_fail_spec true 50 [gs "9.9.9.9:1"] [gs "1.1.1.1:80"]
    [failedResult]
  have h2 := h.2 (by decide) (by decide)
  refine ⟨Or.inl ?_, h2⟩
  rw [h2]
  rfl

/-- C5 (amended): for the API tester, `isWorking` is true exactly when a
response was received, its body was read successfully and the status is
in the 2xx range; for the crawler tester, exactly when a response was
received with status exactly 200.  In both testers a probe that is not
working always carries a recorded failure reason. -/
theorem probe_isWorking_spec (addr : GoStr) (env : ProbeEnv)
    (caddr : GoStr) (cenv : CrawlerProbeEnv) :
    ((TestProxy addr env).isWorking = true ↔
        (env.parseOk = true ∧ env.reqOk = true ∧
          ∃ resp, env.doOutcome = some resp ∧ resp.bodyOk = true ∧
            200 ≤ resp.status ∧ resp.status < 300)) ∧
      ((TestProxy addr env).isWorking = false ↔
        (TestProxy addr env).error.isSome = true) ∧
      ((testProxyCrawler caddr cenv).isWorking = true ↔
        (cenv.parseOk = true ∧ cenv.reqOk = true ∧ cenv.doOutcome = some 200)) ∧
      ((testProxyCrawler caddr cenv).isWorking = false ↔
        (testProxyCrawler caddr cenv).error.isSome = true) := by
  obtain ⟨p, q, d, e⟩ := env
  obtain ⟨cp, cq, cd, ce⟩ := cenv
  refine ⟨?_, ?_, ?_, ?_⟩
  · cases p <;> cases q <;> rcases d with _ | ⟨st, bo, bl⟩ <;>
      simp [TestProxy] <;> cases bo <;>
      by_cases hr : 200 ≤ st ∧ st < 300 <;> simp [TestProxy, hr]
  · cases p <;> cases q <;> rcases d with _ | ⟨st, bo, bl⟩ <;>
      simp [TestProxy] <;> cases bo <;>
      by_cases hr : 200 ≤ st ∧ st < 300 <;> simp [TestProxy, hr]
  · cases cp <;> cases cq <;> rcases cd with _ | st <;>
      simp [testProxyCrawler] <;> by_cases hr : st = 200 <;>
      simp [testProxyCrawler, hr]
  · cases cp <;> cases cq <;> rcases cd with _ | st <;>
      simp [testProxyCrawler] <;> by_cases hr : st = 200 <;>
      simp [testProxyCrawler, hr]

/-- C5, counterexample to the original claim: the crawler tester
receives a response with status 204 — inside the 2xx success range —
yet marks the proxy not working (it requires status exactly 200). -/
theorem probe_204_counterexample :
    (testProxyCrawler (gs "1.1.1.1:80")
        { parseOk := true, reqOk := true, doOutcome := some 204,
          elapsed := 30 }).isWorking = false ∧
      (200 ≤ 204 ∧ 204 < 300) ∧
      (testProxyCrawler (gs "1.1.1.1:80")
        { parseOk := true, reqOk := true, doOutcome := some 204,
          elapsed := 30 }).error = some (.httpError 204) := by decide

/-- C6 (amended): in both testers the `latency` field equals the elapsed
time exactly when `client.Do` returned a response (including non-2xx and
body-read failures); on parse errors, request-creation errors,
connection errors and timeouts it keeps the zero value. -/
theorem probe_latency_spec (addr : GoStr) (env : ProbeEnv)
    (caddr : GoStr) (cenv : CrawlerProbeEnv) :
    (TestProxy addr env).latency =
        (if env.parseOk = true ∧ env.reqOk = true ∧ env.doOutcome.isSome = true
         then env.elapsed else 0) ∧
      (testProxyCrawler caddr cenv).latency =
        (if cenv.parseOk = true ∧ cenv.reqOk = true ∧ cenv.doOutcome.isSome = true
         then cenv.elapsed else 0) := by
  obtain ⟨p, q, d, e⟩ := env
  obtain ⟨cp, cq, cd, ce⟩ := cenv
  constructor
  · cases p <;> cases q <;> rcases d with _ | ⟨st, bo, bl⟩ <;>
      simp [TestProxy] <;> cases bo <;>
      by_cases hr : 200 ≤ st ∧ st < 300 <;> simp [TestProxy, hr]
  · cases cp <;> cases cq <;> rcases cd with _ | st <;>
      simp [testProxyCrawler] <;> by_cases hr : st = 200 <;>
      simp [testProxyCrawler, hr]

/-- C6, counterexample to the original claim: a probe failing with a
connection error after 7 elapsed units reports latency 0, not the
elapsed time. -/
theorem probe_latency_zero_counterexample :
    (TestProxy (gs "1.1.1.1:80")
        { parseOk := true, reqOk := true, doOutcome := none,
          elapsed := 7 }).isWorking = false ∧
      (TestProxy (gs "1.1.1.1:80")
        { parseOk := true, reqOk := true, doOutcome := none,
          elapsed := 7 }).latency = 0 ∧
      (0 : Nat) ≠ 7 := by decide

theorem splitOn_ne_nil (c : Nat) (l : List Nat) : splitOn c l ≠ [] := by
  cases l with
  | nil => simp [splitOn]
  | cons x xs =>
    by_cases hx : x = c
    · simp [splitOn, hx]
    · simp only [splitOn, if_neg hx]
      cases hy : splitOn c xs <;> simp

theorem splitOn_eq_single_iff (c : Nat) (l m : List Nat) :
    splitOn c l = [m] ↔ l = m ∧ c ∉ m := by
  induction l generalizing m with
  | nil =>
    constructor
    · intro h
      simp only [splitOn] at h
      injection h with h1 h2
      subst h1
      exact ⟨rfl, by simp⟩
    · intro ⟨h1, _⟩
      subst h1
      rfl
  | cons x xs ih =>
    by_cases hx : x = c
    · subst hx
      constructor
      · intro h
        simp only [splitOn, if_pos rfl] at h
        injection h with h1 h2
        exact absurd h2 (splitOn_ne_nil _ xs)
      · intro ⟨h1, h2⟩
        exact absurd (h1 ▸ List.mem_cons_self x xs) h2
    · constructor
      · intro h
        simp only [splitOn, if_neg hx] at h
        cases hy : splitOn c xs with
        | nil => exact absurd hy (splitOn_ne_nil c xs)
        | cons y ys =>
          rw [hy] at h
          injection h with h1 h2
          subst h2
          have hxs : xs = y ∧ c ∉ y := (ih y).mp hy
          refine ⟨by rw [hxs.1, h1], ?_⟩
          rw [← h1]
          intro hmem
          rcases List.mem_cons.mp hmem with h3 | h3
          · exact hx h3.symm
          · exact hxs.2 h3
      · intro ⟨h1, h2⟩
        have hx2 : m = x :: xs := h1.symm
        subst hx2
        have hnx : c ∉ xs := fun hm => h2 (List.mem_cons_of_mem _ hm)
        have hxs : splitOn c xs = [xs] := (ih xs).mpr ⟨rfl, hnx⟩
        simp [splitOn, if_neg hx, hxs]

theorem splitOn_eq_pair_iff (c : Nat) (p b : List Nat) : ∀ a : List Nat,
    splitOn c p = [a, b] ↔ p = a ++ c :: b ∧ c ∉ a ∧ c ∉ b := by
  induction p with
  | nil =>
    intro a
    constructor
    · intro h
      simp [splitOn] at h
    · intro ⟨h1, _, _⟩
      cases a <;> simp at h1
  | cons x xs ih =>
    intro a
    by_cases hx : x = c
    · subst hx
      constructor
      · intro h
        simp only [splitOn, if_pos rfl] at h
        injection h with h1 h2
        have hs := (splitOn_eq_single_iff x xs b).mp h2
        subst h1
        exact ⟨by simp [hs.1], by simp, hs.2⟩
      · intro ⟨h1, h2, h3⟩
        cases a with
        | nil =>
          simp only [List.nil_append] at h1
          injection h1 with h1a h1b
          subst h1b
          have hs : splitOn x xs = [xs] :=
            (splitOn_eq_single_iff x xs xs).mpr ⟨rfl, h3⟩
          simp [splitOn, hs]
        | cons a0 as =>
          injection h1 with h1a h1b
          exact absurd (h1a ▸ List.mem_cons_self a0 as) h2
    · constructor
      · intro h
        simp only [splitOn, if_neg hx] at h
        cases hy : splitOn c xs with
        | nil => exact absurd hy (splitOn_ne_nil c xs)
        | cons y ys =>
          rw [hy] at h
          injection h with h1 h2
          subst h2
          have hih := (ih y).mp hy
          refine ⟨?_, ?_, hih.2.2⟩
          · rw [← h1]
            simp [hih.1]
          · rw [← h1]
            intro hm
            rcases List.mem_cons.mp hm with h3 | h3
            · exact hx h3.symm
            · exact hih.2.1 h3
      · intro ⟨h1, h2, h3⟩
        cases a with
        | nil =>
          simp only [List.nil_append] at h1
          injection h1 with h1a h1b
          exact absurd h1a hx
        | cons a0 as =>
          simp only [List.cons_append] at h1
          injection h1 with h1a h1b
          subst h1a
          have h2as : c ∉ as := fun hm => h2 (List.mem_cons_of_mem _ hm)
          have hxs : splitOn c xs = [as, b] := (ih as).mpr ⟨h1b, h2as, h3⟩
          simp [splitOn, if_neg hx, hxs]

/-- C8 (amended): `validateProxy` accepts a candidate exactly when it is
`host:port` — one colon splitting it into a colon-free host and port —
where the host is a valid dotted-quad IPv4 address (hostnames are
rejected, since `net.ParseIP` must succeed) and the port is an integer
in `[1,65535]` as read by `strconv.Atoi`. -/
theorem validateProxy_iff (p : GoStr) :
    validateProxy p = true ↔
      ∃ host port : List Nat,
        p = host ++ 58 :: port ∧ 58 ∉ host ∧ 58 ∉ port ∧
          parseIPv4 host = true ∧
          ∃ n : Int, atoi port = some n ∧ 1 ≤ n ∧ n ≤ 65535 := by
  constructor
  · intro h
    unfold validateProxy at h
    cases hsp : splitOn 58 p with
    | nil => rw [hsp] at h; simp at h
    | cons ip rest =>
      cases rest with
      | nil => rw [hsp] at h; simp at h
      | cons port rest2 =>
        cases rest2 with
        | nil =>
          rw [hsp] at h
          have h2 : (if parseIPv4 ip = false then false
              else
                match atoi port with
                | none => false
                | some portNum => decide (1 ≤ portNum ∧ portNum ≤ 65535)) = true := h
          by_cases hip : parseIPv4 ip = false
          · rw [if_pos hip] at h2
            exact absurd h2 (by simp)
          · rw [if_neg hip] at h2
            cases hat : atoi port with
            | none => rw [hat] at h2; simp at h2
            | some n =>
              rw [hat] at h2
              have hn := of_decide_eq_true h2
              have hip2 : parseIPv4 ip = true := by simpa using hip
              have hstruct := (splitOn_eq_pair_iff 58 p port ip).mp hsp
              exact ⟨ip, port, hstruct.1, hstruct.2.1, hstruct.2.2,
                hip2, n, hat, hn.1, hn.2⟩
        | cons z zs => rw [hsp] at h; simp at h
  · intro ⟨host, port, hp, hh, hpt, hip, n, hat, h1, h2⟩
    have hsp : splitOn 58 p = [host, port] :=
      (splitOn_eq_pair_iff 58 p port host).mpr ⟨hp, hh, hpt⟩
    unfold validateProxy
    rw [hsp]
    show (if parseIPv4 host = false then false
        else
          match atoi port with
          | none => false
          | some portNum => decide (1 ≤ portNum ∧ portNum ≤ 65535)) = true
    rw [if_neg (by simp [hip]), hat]
    exact decide_eq_true ⟨h1, h2⟩

/-- ASCII letter test. -/
def isAlphaByte (b : Nat) : Bool := decide ((65 ≤ b ∧ b ≤ 90) ∨ (97 ≤ b ∧ b ≤ 122))

/-- A byte allowed in a hostname: letter, digit, hyphen or dot. -/
def specHostnameByte (b : Nat) : Bool :=
  isAlphaByte b || isDigit b || decide (b = 45) || decide (b = 46)

/-- Spec-side definition, following the claim's words ("host parses as a
valid IP or hostname"): a valid hostname is non-empty, made of letters,
digits, hyphens and dots, and begins and ends with a letter or digit. -/
def specValidHostname (s : GoStr) : Bool :=
  decide (s ≠ []) && s.all specHostnameByte &&
    (isAlphaByte (s.headD 0) || isDigit (s.headD 0)) &&
    (isAlphaByte (s.getLastD 0) || isDigit (s.getLastD 0))

/-- Spec-side definition of the acceptance predicate claim C8 states:
`host:port` form with host a valid IP or hostname and port an integer in
`[1,65535]`. -/
def specClaimAccepts (p : GoStr) : Bool :=
  match splitOn 58 p with
  | [host, port] =>
    (parseIPv4 host || specValidHostname host) &&
      (match atoi port with
       | some n => decide (1 ≤ n ∧ n ≤ 65535)
       | none => false)
  | _ => false

/-- C8, counterexample to the original claim: `localhost:80` has a valid
hostname and an in-range port, so the claim requires acceptance, but
`validateProxy` rejects it — `net.ParseIP("localhost")` fails and no
hostname branch exists. -/
theorem validateProxy_hostname_counterexample :
    specClaimAccepts (gs "localhost:80") = true ∧
      validateProxy (gs "localhost:80") = false := by decide
